import Mathlib

/-!
Verification of the DMA-direct mapping layer (kernel/dma/direct.c).

The definitions below are a shallow embedding of the C source: machine
integers are `Nat` with explicit reduction modulo `2^64` where the C code
computes in `u64`/`dma_addr_t`, fallible calls return `Option`, and the
side effects of the external collaborators (architecture cache maintenance,
the bounce pool, memset, page frees) are recorded as an explicit event
trace.  External collaborators themselves (the page allocator, the bounce
pool, the per-device coherent pool) are abstracted as function-valued
parameters.
-/

namespace DmaDirect

/-- Word size of `u64` / `dma_addr_t` arithmetic. -/
def W : Nat := 2 ^ 64

/-- Addition in `u64` arithmetic. -/
def addW (a b : Nat) : Nat := (a + b) % W

/-- Subtraction in `u64` arithmetic (two's complement wraparound). -/
def subW (a b : Nat) : Nat := (a + (W - b % W)) % W

/-- The inclusive end `a + s - 1` of a range, in `u64` arithmetic:
adding `2^64 - 1` is subtracting 1 modulo `2^64`. -/
def endW (a s : Nat) : Nat := ((W - 1) + a + s) % W

/-- PAGE_SHIFT for the embedding (4 KiB pages). -/
def PAGE_SHIFT : Nat := 12

/-- PAGE_SIZE. -/
def PAGE_SIZE : Nat := 2 ^ PAGE_SHIFT

/-- PAGE_ALIGN from the kernel: round a size up to a page multiple. -/
def PAGE_ALIGN (s : Nat) : Nat := ((s + PAGE_SIZE - 1) / PAGE_SIZE) * PAGE_SIZE

/-- DMA_BIT_MASK(n) = `(1 << n) - 1`. -/
def DMA_BIT_MASK (n : Nat) : Nat := 2 ^ n - 1

/-- The C `min_not_zero` macro: minimum of the nonzero arguments; a zero
argument stands for "absent" and is ignored. -/
def min_not_zero (a b : Nat) : Nat :=
  if a = 0 then b else if b = 0 then a else min a b

/-- Device addressing profile: the read-only fields of `struct device`
consulted by dma-direct (`dma_mask` is the streaming mask, dereferenced;
`bus_dma_limit` of 0 means no bus limit).  `busOffset` and `encBit` model
the architecture phys-to-bus offset and the memory-encryption address bit
applied by `phys_to_dma` / `__phys_to_dma`. -/
structure Device where
  dma_mask : Nat
  coherent_dma_mask : Nat
  bus_dma_limit : Nat
  is_coherent : Bool
  forceUnencrypted : Bool
  busOffset : Nat
  encBit : Nat

/-- Modelled from the spec: `toBusAddress` with `encrypted = true`, the
translation that bypasses the encryption bit (`__phys_to_dma`); the
architecture-specific offset is the device's `busOffset`. -/
def __phys_to_dma (dev : Device) (phys : Nat) : Nat :=
  addW phys dev.busOffset

/-- Modelled from the spec: `toBusAddress` default translation
(`phys_to_dma`): the architecture offset plus the encryption bit. -/
def phys_to_dma (dev : Device) (phys : Nat) : Nat :=
  addW (addW phys dev.busOffset) dev.encBit

/-- Modelled from the spec: `toPhysicalAddress` (`dma_to_phys`), inverse of
`phys_to_dma`. -/
def dma_to_phys (dev : Device) (addr : Nat) : Nat :=
  subW (subW addr dev.encBit) dev.busOffset

/-- Modelled from the spec: inverse of `__phys_to_dma` (`__dma_to_phys`). -/
def __dma_to_phys (dev : Device) (addr : Nat) : Nat :=
  subW addr dev.busOffset

/-- phys_to_dma_direct from direct.c: pick the unencrypted translation when
the device forces unencrypted DMA. -/
def phys_to_dma_direct (dev : Device) (phys : Nat) : Nat :=
  if dev.forceUnencrypted then __phys_to_dma dev phys
  else phys_to_dma dev phys

/-- dma_coherent_ok from direct.c:
`phys_to_dma_direct(dev, phys) + size - 1 <=
 min_not_zero(dev->coherent_dma_mask, dev->bus_dma_limit)`,
with the left-hand side computed in `u64` arithmetic. -/
def dma_coherent_ok (dev : Device) (phys size : Nat) : Bool :=
  endW (phys_to_dma_direct dev phys) size ≤
    min_not_zero dev.coherent_dma_mask dev.bus_dma_limit

/-- Modelled from the spec: `isReachable` for coherent allocations, with
the bus limit an optional ceiling — true iff
`busAddress + size - 1 <= min(applicableMask, busLimit)` where an absent
`busLimit` imposes no ceiling. -/
def isReachableCoherent (coherentMask : Nat) (busLimit : Option Nat)
    (busAddr size : Nat) : Prop :=
  busAddr + size - 1 ≤
    match busLimit with
    | none => coherentMask
    | some l => min coherentMask l

instance (m : Nat) (bl : Option Nat) (a s : Nat) :
    Decidable (isReachableCoherent m bl a s) := by
  unfold isReachableCoherent; infer_instance

/-- Build configuration options consulted by direct.c, plus the
`zone_dma_bits` global (default 24). -/
structure Cfg where
  zone_dma : Bool
  zone_dma32 : Bool
  dma_direct_remap : Bool
  dma_remap : Bool
  uncached_segment : Bool
  noncoherent_cache_sync : Bool
  mmu : Bool
  zone_dma_bits : Nat

/-- The gfp_t bits direct.c manipulates: the two zone-selection flags, plus
`__GFP_NOWARN`, `__GFP_ZERO` and `__GFP_DIRECT_RECLAIM` (the bit
`gfpflags_allow_blocking` tests). -/
structure Gfp where
  dma : Bool
  dma32 : Bool
  nowarn : Bool
  zero : Bool
  directReclaim : Bool
deriving DecidableEq, Repr

/-- The DMA_ATTR_* bits direct.c consults. -/
structure Attrs where
  no_warn : Bool
  no_kernel_mapping : Bool
  skip_cpu_sync : Bool
  non_consistent : Bool

/-- A physical page (or physically contiguous run of pages) handed back by
an allocator: its physical base address and whether it is high memory. -/
structure Page where
  phys : Nat
  highmem : Bool
deriving DecidableEq, Repr

/-- Zone flag returned by `__dma_direct_optimal_gfp_mask`: GFP_DMA,
GFP_DMA32, or no zone restriction. -/
inductive ZoneFlag
  | dma
  | dma32
  | noZone
deriving DecidableEq, Repr

/-- OR a zone flag into a gfp mask. -/
def applyZone (g : Gfp) : ZoneFlag → Gfp
  | .dma => { g with dma := true }
  | .dma32 => { g with dma32 := true }
  | .noZone => g

/-- dma_direct_optimal_gfp_mask from direct.c (double-underscore name in
the source): compute the physical limit from
`min_not_zero(dma_mask, bus_dma_limit)` and pick GFP_DMA when the limit
fits the ZONE_DMA mask, GFP_DMA32 when it fits 32 bits, else no zone flag. -/
def __dma_direct_optimal_gfp_mask (cfg : Cfg) (dev : Device) (dma_mask : Nat) :
    ZoneFlag × Nat :=
  let dma_limit := min_not_zero dma_mask dev.bus_dma_limit
  let phys_limit :=
    if dev.forceUnencrypted then __dma_to_phys dev dma_limit
    else dma_to_phys dev dma_limit
  if phys_limit ≤ DMA_BIT_MASK cfg.zone_dma_bits then (.dma, phys_limit)
  else if phys_limit ≤ DMA_BIT_MASK 32 then (.dma32, phys_limit)
  else (.noZone, phys_limit)

/-- External allocator collaborators: `dma_alloc_contiguous` /
`alloc_pages_node` as functions of the requested size and gfp flags,
`dma_alloc_from_pool` returning a kernel address and a page, and the
result of `dma_common_contiguous_remap`. -/
structure AllocEnv where
  cma_alloc : Nat → Gfp → Option Page
  page_alloc : Nat → Gfp → Option Page
  pool_alloc : Nat → Gfp → Option (Nat × Page)
  remap : Option Nat

/-- Termination measure for the zone-fallback loop: 0 once GFP_DMA is set,
1 with only GFP_DMA32, 2 with no zone flag. -/
def gfpMeasure (g : Gfp) : Nat :=
  if g.dma then 0 else if g.dma32 then 1 else 2

/-- The `again:` loop of `__dma_direct_alloc_pages`, entered with no page
in hand (a contiguous-pool page that already passed `dma_coherent_ok`
returns before re-allocating; one that failed was released and left the C
variable NULL): call the page allocator, release a page that fails
`dma_coherent_ok`, and retry with GFP_DMA32 and then GFP_DMA.  Besides the
resulting page it returns the list of gfp masks with which
`alloc_pages_node` was invoked, in order. -/
def alloc_loop (cfg : Cfg) (dev : Device) (env : AllocEnv)
    (size alloc_size phys_limit : Nat) (gfp : Gfp) :
    Option Page × List Gfp :=
  match env.page_alloc alloc_size gfp with
  | none => (none, [gfp])
  | some p =>
    if dma_coherent_ok dev p.phys size then (some p, [gfp])
    else if h32 : cfg.zone_dma32 ∧ phys_limit < DMA_BIT_MASK 64 ∧
        ¬gfp.dma32 ∧ ¬gfp.dma then
      let r := alloc_loop cfg dev env size alloc_size phys_limit
        { gfp with dma32 := true }
      (r.1, gfp :: r.2)
    else if hd : cfg.zone_dma ∧ ¬gfp.dma then
      let r := alloc_loop cfg dev env size alloc_size phys_limit
        { gfp with dma := true, dma32 := false }
      (r.1, gfp :: r.2)
    else (none, [gfp])
termination_by gfpMeasure gfp
decreasing_by
  · rcases h32 with ⟨-, -, h1, h2⟩
    simp [gfpMeasure, h1, h2]
  · rcases hd with ⟨-, h2⟩
    by_cases h3 : gfp.dma32 <;> simp [gfpMeasure, h2, h3]

/-- dma_direct_alloc_pages (double-underscore variant) from direct.c: page
alignment, gfp adjustment, optimal zone selection, the contiguous-pool
attempt with its reachability check, then the zone-fallback loop.  Returns
the page (if any) and the trace of gfp masks passed to the general page
allocator. -/
def __dma_direct_alloc_pages (cfg : Cfg) (dev : Device) (env : AllocEnv)
    (size : Nat) (gfp : Gfp) (attrs : Attrs) : Option Page × List Gfp :=
  let alloc_size := PAGE_ALIGN size
  let gfp := if attrs.no_warn then { gfp with nowarn := true } else gfp
  let gfp := { gfp with zero := false }
  let zl := __dma_direct_optimal_gfp_mask cfg dev dev.coherent_dma_mask
  let gfp := applyZone gfp zl.1
  match env.cma_alloc alloc_size gfp with
  | some p =>
    if dma_coherent_ok dev p.phys size then (some p, [])
    else alloc_loop cfg dev env size alloc_size zl.2 gfp
  | none => alloc_loop cfg dev env size alloc_size zl.2 gfp

/-- Observable side effects of the dma-direct operations on their external
collaborators, recorded in program order. -/
inductive Ev
  | memset (size : Nat)
  | prepCoherent (size : Nat)
  | remapped (size : Nat)
  | freeContig (size : Nat)
  | setDecrypted
  | archSyncDevice (paddr size : Nat)
  | archSyncCpu (paddr size : Nat)
  | archSyncCpuAll
  | tblSync (paddr size : Nat) (forCpu : Bool)
  | tblUnmap (paddr size : Nat)
deriving DecidableEq, Repr

/-- Modelled from the spec: `dma_alloc_need_uncached` (declared in
dma-noncoherent.h, not part of this source file) — an uncached alias is
needed only for a non-coherent device, and not when the caller asked for
no kernel mapping, nor for a non-consistent allocation when the build
supports explicit cache sync for those. -/
def dma_alloc_need_uncached (cfg : Cfg) (dev : Device) (attrs : Attrs) : Bool :=
  if dev.is_coherent then false
  else if attrs.no_kernel_mapping then false
  else if cfg.noncoherent_cache_sync ∧ attrs.non_consistent then false
  else true

/-- dma_direct_alloc_pages from direct.c: the atomic-pool path for
non-blocking uncached allocations, then `__dma_direct_alloc_pages`,
then one of the four return paths (no-kernel-mapping cookie, uncached or
highmem remap, highmem hard failure, direct kernel address).  Returns the
CPU address / cookie plus the dma handle on success, and the event trace
of memsets, cache-maintenance calls, remaps and frees. -/
def dma_direct_alloc_pages (cfg : Cfg) (dev : Device) (env : AllocEnv)
    (size : Nat) (gfp : Gfp) (attrs : Attrs) :
    Option (Nat × Nat) × List Ev :=
  let handle := fun (p : Page) =>
    if dev.forceUnencrypted then __phys_to_dma dev p.phys
    else phys_to_dma dev p.phys
  if cfg.dma_direct_remap ∧ dma_alloc_need_uncached cfg dev attrs ∧
      ¬gfp.directReclaim then
    match env.pool_alloc (PAGE_ALIGN size) gfp with
    | none => (none, [])
    | some (va, p) => (some (va, handle p), [])
  else
    match (__dma_direct_alloc_pages cfg dev env size gfp attrs).1 with
    | none => (none, [])
    | some p =>
      if attrs.no_kernel_mapping ∧ ¬dev.forceUnencrypted then
        (some (p.phys, handle p),
          if ¬p.highmem then [.prepCoherent size] else [])
      else if (cfg.dma_direct_remap ∧ dma_alloc_need_uncached cfg dev attrs) ∨
          (cfg.dma_remap ∧ p.highmem) then
        match env.remap with
        | none => (none, [.prepCoherent (PAGE_ALIGN size), .freeContig size])
        | some va =>
          (some (va, handle p),
            [.prepCoherent (PAGE_ALIGN size), .remapped (PAGE_ALIGN size),
             .memset size])
      else if p.highmem then
        (none, [.freeContig size])
      else
        let evs := (if dev.forceUnencrypted then [Ev.setDecrypted] else []) ++
          [Ev.memset size]
        let evs := evs ++
          (if cfg.uncached_segment ∧ dma_alloc_need_uncached cfg dev attrs then
            [Ev.prepCoherent size] else [])
        (some (p.phys, handle p), evs)

/-- DMA transfer direction. -/
inductive Dir
  | toDevice
  | fromDevice
  | bidirectional
deriving DecidableEq, Repr

/-- The external bounce pool (swiotlb): the global force flag
(`swiotlb_force == SWIOTLB_FORCE`), the `swiotlb_map` operation (given the
physical address and size, either a substituted (physical, bus) address
pair or failure), and the `is_swiotlb_buffer` test. -/
structure Swiotlb where
  force : Bool
  map : Nat → Nat → Option (Nat × Nat)
  is_buffer : Nat → Bool

/-- Modelled from the spec: `dma_capable` (declared in dma-direct.h, not
part of this source file) — the streaming reachability check
`isReachable`: the bus address range must end at or below
`min_not_zero(streamingMask, busLimit)`, in `u64` arithmetic. -/
def dma_capable (dev : Device) (addr size : Nat) : Bool :=
  endW addr size ≤ min_not_zero dev.dma_mask dev.bus_dma_limit

/-- dma_direct_possible from direct.c: a direct (non-bounced) mapping is
possible iff the bounce pool is not forced and the address is capable. -/
def dma_direct_possible (dev : Device) (sw : Swiotlb) (dma_addr size : Nat) :
    Bool :=
  ¬sw.force ∧ dma_capable dev dma_addr size

/-- dma_direct_map_page from direct.c: translate the page+offset to a bus
address; when a direct mapping is impossible, substitute through
`swiotlb_map` (which rewrites both the physical and the bus address) or
fail; finally, on a non-coherent device without DMA_ATTR_SKIP_CPU_SYNC,
sync the (possibly substituted) physical range for the device.  Returns
the bus address on success, a flag recording whether the bounce pool was
used, and the event trace. -/
def dma_direct_map_page (dev : Device) (sw : Swiotlb)
    (page_phys offset size : Nat) (dir : Dir) (attrs : Attrs) :
    Option Nat × Bool × List Ev :=
  let phys := page_phys + offset
  let dma_addr := phys_to_dma dev phys
  let step :=
    if dma_direct_possible dev sw dma_addr size then some (phys, dma_addr, false)
    else
      match sw.map phys size with
      | none => none
      | some (phys', dmaAddr') => some (phys', dmaAddr', true)
  match step with
  | none => (none, false, [])
  | some (phys', dmaAddr', bounced) =>
    (some (dmaAddr'), bounced,
      if ¬dev.is_coherent ∧ ¬attrs.skip_cpu_sync then
        [Ev.archSyncDevice phys' size] else [])

/-- dma_direct_sync_single_for_device from direct.c: bounce-slot copy-in
when the physical address is a swiotlb buffer, then the device-facing
cache flush when the device is non-coherent. -/
def dma_direct_sync_single_for_device (dev : Device) (sw : Swiotlb)
    (addr size : Nat) : List Ev :=
  let paddr := dma_to_phys dev addr
  (if sw.is_buffer paddr then [Ev.tblSync paddr size false] else []) ++
  (if ¬dev.is_coherent then [Ev.archSyncDevice paddr size] else [])

/-- dma_direct_sync_single_for_cpu from direct.c: on a non-coherent
device, the CPU-facing cache invalidation and the architecture-wide
invalidation, then the bounce-slot copy-back when the address is staged in
the bounce pool. -/
def dma_direct_sync_single_for_cpu (dev : Device) (sw : Swiotlb)
    (addr size : Nat) : List Ev :=
  let paddr := dma_to_phys dev addr
  (if ¬dev.is_coherent then
    [Ev.archSyncCpu paddr size, Ev.archSyncCpuAll] else []) ++
  (if sw.is_buffer paddr then [Ev.tblSync paddr size true] else [])

/-- A scatter-gather entry: the page's physical base, the intra-page
offset, the segment length, and the output fields `dma_address` /
`dma_length` written by mapping. -/
structure SgEnt where
  phys : Nat
  offset : Nat
  length : Nat
  dma_address : Nat
  dma_length : Nat
deriving DecidableEq, Repr

/-- dma_direct_sync_sg_for_device from direct.c: one loop over the
segments; per segment, bounce copy-in when staged, then the device-facing
flush when non-coherent. -/
def dma_direct_sync_sg_for_device (dev : Device) (sw : Swiotlb) :
    List SgEnt → List Ev
  | [] => []
  | sg :: rest =>
    let paddr := dma_to_phys dev sg.dma_address
    ((if sw.is_buffer paddr then [Ev.tblSync paddr sg.length false] else []) ++
     (if ¬dev.is_coherent then [Ev.archSyncDevice paddr sg.length] else [])) ++
    dma_direct_sync_sg_for_device dev sw rest

/-- The per-segment body of the `dma_direct_sync_sg_for_cpu` loop:
CPU-facing invalidation when non-coherent, then bounce copy-back when
staged. -/
def sync_sg_cpu_seg (dev : Device) (sw : Swiotlb) (sg : SgEnt) : List Ev :=
  let paddr := dma_to_phys dev sg.dma_address
  (if ¬dev.is_coherent then [Ev.archSyncCpu paddr sg.length] else []) ++
  (if sw.is_buffer paddr then [Ev.tblSync paddr sg.length true] else [])

/-- The loop of `dma_direct_sync_sg_for_cpu`. -/
def sync_sg_cpu_loop (dev : Device) (sw : Swiotlb) : List SgEnt → List Ev
  | [] => []
  | sg :: rest => sync_sg_cpu_seg dev sw sg ++ sync_sg_cpu_loop dev sw rest

/-- dma_direct_sync_sg_for_cpu from direct.c: the per-segment loop,
followed by a single architecture-wide invalidation (once, after the
loop) when the device is non-coherent. -/
def dma_direct_sync_sg_for_cpu (dev : Device) (sw : Swiotlb)
    (sgl : List SgEnt) : List Ev :=
  sync_sg_cpu_loop dev sw sgl ++
  (if ¬dev.is_coherent then [Ev.archSyncCpuAll] else [])

/-- dma_direct_unmap_page from direct.c: sync the buffer for the CPU
unless DMA_ATTR_SKIP_CPU_SYNC is set, then release the bounce slot when
the address was staged. -/
def dma_direct_unmap_page (dev : Device) (sw : Swiotlb)
    (addr size : Nat) (attrs : Attrs) : List Ev :=
  let phys := dma_to_phys dev addr
  (if ¬attrs.skip_cpu_sync then dma_direct_sync_single_for_cpu dev sw addr size
   else []) ++
  (if sw.is_buffer phys then [Ev.tblUnmap phys size] else [])

/-- dma_direct_unmap_sg from direct.c: unmap each of the first `nents`
segments in list order, via `dma_direct_unmap_page` on the segment's
`dma_address` and `dma_length`. -/
def dma_direct_unmap_sg (dev : Device) (sw : Swiotlb)
    (sgl : List SgEnt) (attrs : Attrs) : List Ev :=
  (sgl.map (fun sg =>
    dma_direct_unmap_page dev sw sg.dma_address sg.dma_length attrs)).flatten

/-- The loop of `dma_direct_map_sg`: map each segment in order via
`dma_direct_map_page`, writing the segment's `dma_address` and
`dma_length`; on the first failure, unmap the already-mapped prefix with
DMA_ATTR_SKIP_CPU_SYNC added and return 0.  `acc` is the reversed list of
already-mapped segments and `evs` the events so far. -/
def map_sg_loop (dev : Device) (sw : Swiotlb) (dir : Dir) (attrs : Attrs)
    (acc : List SgEnt) (evs : List Ev) :
    List SgEnt → Nat × List SgEnt × List Ev
  | [] => (acc.length, acc.reverse, evs)
  | sg :: rest =>
    let m := dma_direct_map_page dev sw sg.phys sg.offset sg.length dir attrs
    match m.1 with
    | some a =>
      map_sg_loop dev sw dir attrs
        ({ sg with dma_address := a, dma_length := sg.length } :: acc)
        (evs ++ m.2.2) rest
    | none =>
      let done := acc.reverse
      (0, done ++ ({ sg with dma_address := W - 1 } :: rest),
        evs ++ m.2.2 ++
          dma_direct_unmap_sg dev sw done { attrs with skip_cpu_sync := true })

/-- dma_direct_map_sg from direct.c: on success return `nents` with every
segment's bus address written; on the first segment failure unmap the
mapped prefix (with CPU sync skipped) and return 0. -/
def dma_direct_map_sg (dev : Device) (sw : Swiotlb) (sgl : List SgEnt)
    (dir : Dir) (attrs : Attrs) : Nat × List SgEnt × List Ev :=
  map_sg_loop dev sw dir attrs [] [] sgl

/-- A user VMA: its page offset into the backing object and its size in
pages (`vma_pages`). -/
structure Vma where
  vm_pgoff : Nat
  pages : Nat

/-- dma_direct_mmap from direct.c (CONFIG_MMU variant): after the
per-device coherent-pool early return (`fromDevCoherent`, external),
reject with -ENXIO any request whose page offset or page count does not
fit in the allocation's page count, else populate the range via
`remap_pfn_range` (whose external result is `remapRet`).  Returns the
result and whether `remap_pfn_range` was invoked. -/
def dma_direct_mmap (cfg : Cfg) (vma : Vma) (size : Nat)
    (fromDevCoherent : Option Int) (remapRet : Int) : Int × Bool :=
  if ¬cfg.mmu then (-6, false)
  else
    let user_count := vma.pages
    let count := PAGE_ALIGN size / PAGE_SIZE
    match fromDevCoherent with
    | some r => (r, false)
    | none =>
      if vma.vm_pgoff ≥ count ∨ user_count > count - vma.vm_pgoff then
        (-6, false)
      else (remapRet, true)

/-- Maximum physical address served by a zone tier: the ZONE_DMA mask, the
32-bit mask, or the full 64-bit space for an unrestricted allocation. -/
def tierMax (cfg : Cfg) : ZoneFlag → Nat
  | .dma => DMA_BIT_MASK cfg.zone_dma_bits
  | .dma32 => DMA_BIT_MASK 32
  | .noZone => DMA_BIT_MASK 64

/-- Does an event denote the CPU-facing architecture cache invalidation of
a buffer range? -/
def isArchInv : Ev → Bool
  | .archSyncCpu _ _ => true
  | _ => false

/-- Does an event denote a bounce-slot copy-back to the CPU buffer? -/
def isBounceBack : Ev → Bool
  | .tblSync _ _ forCpu => forCpu
  | _ => false

/-- Every architecture invalidation in the trace occurs strictly before
every bounce-slot copy-back: the trace splits into a prefix free of
copy-backs and a suffix free of invalidations. -/
def ArchInvBeforeBounce (tr : List Ev) : Prop :=
  ∃ a b, tr = a ++ b ∧ (∀ e ∈ a, isBounceBack e = false) ∧
    (∀ e ∈ b, isArchInv e = false)

/-- The bus address `dma_direct_map_page` yields for a segment. -/
def mapSegAddr (dev : Device) (sw : Swiotlb) (dir : Dir) (attrs : Attrs)
    (sg : SgEnt) : Option Nat :=
  (dma_direct_map_page dev sw sg.phys sg.offset sg.length dir attrs).1

/-- The events `dma_direct_map_page` emits for a segment. -/
def mapSegEvs (dev : Device) (sw : Swiotlb) (dir : Dir) (attrs : Attrs)
    (sg : SgEnt) : List Ev :=
  (dma_direct_map_page dev sw sg.phys sg.offset sg.length dir attrs).2.2

/-- A segment after a successful mapping: its bus address and dma length
written. -/
def assignSeg (dev : Device) (sw : Swiotlb) (dir : Dir) (attrs : Attrs)
    (sg : SgEnt) : SgEnt :=
  { sg with dma_address := (mapSegAddr dev sw dir attrs sg).getD 0,
            dma_length := sg.length }

/-- A benign baseline device: unrestricted masks, no bus limit, coherent,
no encryption, identity bus translation. -/
def devBase : Device :=
  ⟨DMA_BIT_MASK 64, DMA_BIT_MASK 64, 0, true, false, 0, 0⟩

/-- A baseline configuration: both DMA zones built, no remap facilities,
MMU present, default 24-bit ZONE_DMA. -/
def cfgBase : Cfg := ⟨true, true, false, false, false, false, true, 24⟩

/-- No attribute bits set. -/
def attrsBase : Attrs := ⟨false, false, false, false⟩

/-- DMA_ATTR_NO_KERNEL_MAPPING only. -/
def attrsNoMap : Attrs := ⟨false, true, false, false⟩

/-- No gfp bits set. -/
def gfpBase : Gfp := ⟨false, false, false, false, false⟩

/-- A bounce pool that is not forced, has no slots and stages nothing. -/
def swBase : Swiotlb := ⟨false, fun _ _ => none, fun _ => false⟩

/-- A device whose coherent mask spans 40 bits (wider than 32 bits, so the
initial allocation attempt is zone-unrestricted). -/
def devA : Device := { devBase with coherent_dma_mask := DMA_BIT_MASK 40 }

/-- An allocator environment whose contiguous pool is empty and whose page
allocator returns an unreachable page (above 2^40) for a zone-unrestricted
request but a reachable one once a zone flag is set. -/
def envA : AllocEnv :=
  ⟨fun _ _ => none,
   fun _ g => if ¬g.dma32 ∧ ¬g.dma then some ⟨2 ^ 41, false⟩
     else some ⟨0, false⟩,
   fun _ _ => none, none⟩

/-- An allocator environment whose contiguous pool returns a reachable
low-memory page. -/
def envCookie : AllocEnv :=
  ⟨fun _ _ => some ⟨4096, false⟩, fun _ _ => none, fun _ _ => none, none⟩

/-- An allocator environment whose contiguous pool returns a reachable
high-memory page. -/
def envHigh : AllocEnv :=
  ⟨fun _ _ => some ⟨4096, true⟩, fun _ _ => none, fun _ _ => none, none⟩

/-- A non-coherent device with identity translation. -/
def devN : Device := { devBase with is_coherent := false }

/-- Two concrete mapped scatter-gather segments. -/
def sgA : SgEnt := ⟨8192, 0, 4096, 8192, 4096⟩

/-- Second concrete segment. -/
def sgB : SgEnt := ⟨16384, 0, 4096, 16384, 4096⟩

/-! Helper lemmas. -/

theorem W_eq : W = 18446744073709551616 := by norm_num [W]

/-- In-range `u64` arithmetic: `(a + s) - 1` computed with wraparound
agrees with the exact value when `a + s` does not exceed `2^64` and
`s` is positive. -/
theorem endW_eq (a s : Nat) (hs : 0 < s) (hb : a + s ≤ W) :
    endW a s = a + s - 1 := by
  unfold endW
  rw [W_eq] at *
  omega

/-- The zone-fallback loop returns the first page that passes the
coherent-reachability check, after exactly one allocator call. -/
theorem alloc_loop_first_ok (cfg : Cfg) (dev : Device) (env : AllocEnv)
    (size alloc_size phys_limit : Nat) (gfp : Gfp) (p : Page)
    (hp : env.page_alloc alloc_size gfp = some p)
    (h : dma_coherent_ok dev p.phys size = true) :
    alloc_loop cfg dev env size alloc_size phys_limit gfp =
      (some p, [gfp]) := by
  rw [alloc_loop, hp]
  simp [h]

/-- The zone-fallback loop stops after one call when the allocator has
nothing. -/
theorem alloc_loop_none (cfg : Cfg) (dev : Device) (env : AllocEnv)
    (size alloc_size phys_limit : Nat) (gfp : Gfp)
    (hp : env.page_alloc alloc_size gfp = none) :
    alloc_loop cfg dev env size alloc_size phys_limit gfp =
      (none, [gfp]) := by
  rw [alloc_loop, hp]

/-- The zone-fallback loop falls back to GFP_DMA32 when a page of an
unrestricted zone fails the reachability check. -/
theorem alloc_loop_step32 (cfg : Cfg) (dev : Device) (env : AllocEnv)
    (size alloc_size phys_limit : Nat) (gfp : Gfp) (p : Page)
    (hp : env.page_alloc alloc_size gfp = some p)
    (h : ¬dma_coherent_ok dev p.phys size = true)
    (h32 : cfg.zone_dma32 = true ∧ phys_limit < DMA_BIT_MASK 64 ∧
      ¬gfp.dma32 = true ∧ ¬gfp.dma = true) :
    alloc_loop cfg dev env size alloc_size phys_limit gfp =
      ((alloc_loop cfg dev env size alloc_size phys_limit
          { gfp with dma32 := true }).1,
        gfp :: (alloc_loop cfg dev env size alloc_size phys_limit
          { gfp with dma32 := true }).2) := by
  rw [alloc_loop, hp]
  simp only [h, if_false, Bool.false_eq_true]
  rw [dif_pos h32]

/-- The zone-fallback loop falls back to GFP_DMA (clearing GFP_DMA32) when
the GFP_DMA32 fallback is unavailable or exhausted. -/
theorem alloc_loop_stepDma (cfg : Cfg) (dev : Device) (env : AllocEnv)
    (size alloc_size phys_limit : Nat) (gfp : Gfp) (p : Page)
    (hp : env.page_alloc alloc_size gfp = some p)
    (h : ¬dma_coherent_ok dev p.phys size = true)
    (h32 : ¬(cfg.zone_dma32 = true ∧ phys_limit < DMA_BIT_MASK 64 ∧
      ¬gfp.dma32 = true ∧ ¬gfp.dma = true))
    (hd : cfg.zone_dma = true ∧ ¬gfp.dma = true) :
    alloc_loop cfg dev env size alloc_size phys_limit gfp =
      ((alloc_loop cfg dev env size alloc_size phys_limit
          { gfp with dma := true, dma32 := false }).1,
        gfp :: (alloc_loop cfg dev env size alloc_size phys_limit
          { gfp with dma := true, dma32 := false }).2) := by
  rw [alloc_loop, hp]
  simp only [h, if_false, Bool.false_eq_true]
  rw [dif_neg h32, dif_pos hd]

/-- The zone-fallback loop gives up when a page is unreachable and no
narrower zone remains. -/
theorem alloc_loop_stop (cfg : Cfg) (dev : Device) (env : AllocEnv)
    (size alloc_size phys_limit : Nat) (gfp : Gfp) (p : Page)
    (hp : env.page_alloc alloc_size gfp = some p)
    (h : ¬dma_coherent_ok dev p.phys size = true)
    (h32 : ¬(cfg.zone_dma32 = true ∧ phys_limit < DMA_BIT_MASK 64 ∧
      ¬gfp.dma32 = true ∧ ¬gfp.dma = true))
    (hd : ¬(cfg.zone_dma = true ∧ ¬gfp.dma = true)) :
    alloc_loop cfg dev env size alloc_size phys_limit gfp =
      (none, [gfp]) := by
  rw [alloc_loop, hp]
  simp only [h, if_false, Bool.false_eq_true]
  rw [dif_neg h32, dif_neg hd]

/-- The trace of gfp masks tried by the zone-fallback loop is short
(at most `gfpMeasure gfp + 1` entries), bounded by the entry mask's
measure, and strictly decreasing in zone width. -/
theorem alloc_loop_trace (cfg : Cfg) (dev : Device) (env : AllocEnv)
    (size alloc_size phys_limit : Nat) (g : Gfp) :
    ((alloc_loop cfg dev env size alloc_size phys_limit g).2).length ≤
      gfpMeasure g + 1 ∧
    (∀ x ∈ (alloc_loop cfg dev env size alloc_size phys_limit g).2,
      gfpMeasure x ≤ gfpMeasure g) ∧
    List.Chain' (fun a b => gfpMeasure b < gfpMeasure a)
      (alloc_loop cfg dev env size alloc_size phys_limit g).2 := by
  induction g using alloc_loop.induct cfg dev env size alloc_size phys_limit with
  | case1 x hpa =>
    rw [alloc_loop_none cfg dev env size alloc_size phys_limit x hpa]
    simp
  | case2 x p hpa hok =>
    rw [alloc_loop_first_ok cfg dev env size alloc_size phys_limit x p hpa hok]
    simp
  | case3 x p hpa hok h32 ih =>
    rw [alloc_loop_step32 cfg dev env size alloc_size phys_limit x p hpa hok h32]
    have hm : gfpMeasure { x with dma32 := true } < gfpMeasure x := by
      rcases h32 with ⟨-, -, h1, h2⟩
      simp [gfpMeasure, h1, h2]
    obtain ⟨ihl, ihb, ihc⟩ := ih
    refine ⟨by simpa using Nat.add_le_add_right (ihl.trans (by omega)) 0, ?_, ?_⟩
    · intro y hy
      rcases List.mem_cons.mp hy with rfl | hy
      · exact le_refl _
      · exact (ihb y hy).trans (le_of_lt hm)
    · rw [List.chain'_cons']
      refine ⟨?_, ihc⟩
      intro b hb
      have hbm := ihb b (List.mem_of_mem_head? hb)
      omega
  | case4 x p hpa hok h32 hd ih =>
    rw [alloc_loop_stepDma cfg dev env size alloc_size phys_limit x p hpa hok
      h32 hd]
    have hm : gfpMeasure { x with dma := true, dma32 := false } <
        gfpMeasure x := by
      rcases hd with ⟨-, h2⟩
      by_cases h3 : x.dma32 <;> simp [gfpMeasure, h2, h3]
    obtain ⟨ihl, ihb, ihc⟩ := ih
    refine ⟨by simpa using Nat.add_le_add_right (ihl.trans (by omega)) 0, ?_, ?_⟩
    · intro y hy
      rcases List.mem_cons.mp hy with rfl | hy
      · exact le_refl _
      · exact (ihb y hy).trans (le_of_lt hm)
    · rw [List.chain'_cons']
      refine ⟨?_, ihc⟩
      intro b hb
      have hbm := ihb b (List.mem_of_mem_head? hb)
      omega
  | case5 x p hpa hok h32 hd =>
    rw [alloc_loop_stop cfg dev env size alloc_size phys_limit x p hpa hok
      h32 hd]
    simp

theorem W_pos : 0 < W := by rw [W_eq]; omega

theorem subW_lt (a b : Nat) : subW a b < W := Nat.mod_lt _ W_pos

theorem gfpMeasure_le_two (g : Gfp) : gfpMeasure g ≤ 2 := by
  unfold gfpMeasure
  split
  · omega
  · split <;> omega

/-- The result pair of the zone selector is an if-chain on the physical
limit, which is itself below `2^64`. -/
theorem optimal_gfp_shape (cfg : Cfg) (dev : Device) (m : Nat) :
    ∃ pl, __dma_direct_optimal_gfp_mask cfg dev m =
      ((if pl ≤ DMA_BIT_MASK cfg.zone_dma_bits then ZoneFlag.dma
        else if pl ≤ DMA_BIT_MASK 32 then ZoneFlag.dma32
        else ZoneFlag.noZone), pl) ∧ pl < W := by
  have chain : ∀ a b pl : Nat,
      (if pl ≤ a then (ZoneFlag.dma, pl)
       else if pl ≤ b then (ZoneFlag.dma32, pl) else (ZoneFlag.noZone, pl)) =
      ((if pl ≤ a then ZoneFlag.dma
        else if pl ≤ b then ZoneFlag.dma32 else ZoneFlag.noZone), pl) := by
    intro a b pl
    split
    · rfl
    · split <;> rfl
  unfold __dma_direct_optimal_gfp_mask
  dsimp only
  by_cases hf : dev.forceUnencrypted = true
  · rw [if_pos hf]
    exact ⟨_, chain _ _ _, subW_lt _ _⟩
  · rw [if_neg hf]
    exact ⟨_, chain _ _ _, subW_lt _ _⟩

/-- The tier picked by the if-chain of the zone selector covers the
physical limit and has the least ceiling among the tiers that cover it. -/
theorem pick_narrowest (cfg : Cfg) (pl : Nat) (hz : cfg.zone_dma_bits ≤ 32)
    (hlt : pl < W) :
    pl ≤ tierMax cfg
      (if pl ≤ DMA_BIT_MASK cfg.zone_dma_bits then ZoneFlag.dma
       else if pl ≤ DMA_BIT_MASK 32 then ZoneFlag.dma32
       else ZoneFlag.noZone) ∧
    ∀ t, pl ≤ tierMax cfg t →
      tierMax cfg
        (if pl ≤ DMA_BIT_MASK cfg.zone_dma_bits then ZoneFlag.dma
         else if pl ≤ DMA_BIT_MASK 32 then ZoneFlag.dma32
         else ZoneFlag.noZone) ≤ tierMax cfg t := by
  have hdma32 : tierMax cfg .dma ≤ tierMax cfg .dma32 := by
    simp only [tierMax, DMA_BIT_MASK]
    exact Nat.sub_le_sub_right (Nat.pow_le_pow_right (by omega) hz) 1
  have h3264 : tierMax cfg .dma32 ≤ tierMax cfg .noZone := by
    simp only [tierMax, DMA_BIT_MASK]
    exact Nat.sub_le_sub_right (Nat.pow_le_pow_right (by omega) (by omega)) 1
  have h64 : pl ≤ tierMax cfg .noZone := by
    simp only [tierMax, DMA_BIT_MASK]
    rw [W_eq] at hlt
    omega
  by_cases hA : pl ≤ DMA_BIT_MASK cfg.zone_dma_bits
  · rw [if_pos hA]
    exact ⟨hA, fun t _ => by
      cases t
      · exact le_refl _
      · exact hdma32
      · exact hdma32.trans h3264⟩
  · rw [if_neg hA]
    by_cases hB : pl ≤ DMA_BIT_MASK 32
    · rw [if_pos hB]
      refine ⟨hB, fun t ht => ?_⟩
      cases t
      · exact absurd ht hA
      · exact le_refl _
      · exact h3264
    · rw [if_neg hB]
      refine ⟨h64, fun t ht => ?_⟩
      cases t
      · exact absurd ht hA
      · exact absurd ht hB
      · exact le_refl _

/-- Any gfp trace of `__dma_direct_alloc_pages` is either empty (the
contiguous pool satisfied the request) or a trace of the zone-fallback
loop. -/
theorem alloc_pages_trace_cases (cfg : Cfg) (dev : Device) (env : AllocEnv)
    (size : Nat) (gfp : Gfp) (attrs : Attrs) :
    (__dma_direct_alloc_pages cfg dev env size gfp attrs).2 = [] ∨
    ∃ g0, (__dma_direct_alloc_pages cfg dev env size gfp attrs).2 =
      (alloc_loop cfg dev env size (PAGE_ALIGN size)
        (__dma_direct_optimal_gfp_mask cfg dev dev.coherent_dma_mask).2
        g0).2 := by
  unfold __dma_direct_alloc_pages
  dsimp only
  split
  · split
    · left; rfl
    · right; exact ⟨_, rfl⟩
  · right; exact ⟨_, rfl⟩

/-- C10: the zone-fallback retry loop terminates for every input — the
general page allocator is consulted at most three times per allocation
call (the trace of gfp masks passed to it has at most three entries, each
retry moving to a strictly narrower zone class that was checked absent
before retrying). -/
theorem alloc_zone_fallback_at_most_three (cfg : Cfg) (dev : Device)
    (env : AllocEnv) (size : Nat) (gfp : Gfp) (attrs : Attrs) :
    ((__dma_direct_alloc_pages cfg dev env size gfp attrs).2).length ≤ 3 := by
  rcases alloc_pages_trace_cases cfg dev env size gfp attrs with h | ⟨g0, h⟩
  · rw [h]; simp
  · rw [h]
    have hb := (alloc_loop_trace cfg dev env size (PAGE_ALIGN size)
      (__dma_direct_optimal_gfp_mask cfg dev dev.coherent_dma_mask).2 g0).1
    have hm := gfpMeasure_le_two g0
    omega

/-- When the contiguous pool is empty, `__dma_direct_alloc_pages` is
exactly the zone-fallback loop started at the zone-adjusted gfp mask. -/
theorem alloc_pages_no_cma (cfg : Cfg) (dev : Device) (env : AllocEnv)
    (size : Nat) (gfp : Gfp) (attrs : Attrs)
    (hc : ∀ g, env.cma_alloc (PAGE_ALIGN size) g = none) :
    __dma_direct_alloc_pages cfg dev env size gfp attrs =
      alloc_loop cfg dev env size (PAGE_ALIGN size)
        (__dma_direct_optimal_gfp_mask cfg dev dev.coherent_dma_mask).2
        (applyZone
          { (if attrs.no_warn then { gfp with nowarn := true } else gfp) with
              zero := false }
          (__dma_direct_optimal_gfp_mask cfg dev dev.coherent_dma_mask).1) := by
  unfold __dma_direct_alloc_pages
  dsimp only
  rw [hc]

/-- C1 (amended): the zone-class ladder is monotonic in the direction the
code implements — the initial zone class is the narrowest tier whose
maximum address covers the computed physical limit, and on a reachability
failure within a tier the allocator falls back to the next narrower tier,
never selecting a wider zone class after having moved to a narrower one
(the gfp trace is strictly decreasing in zone width). -/
theorem zone_ladder_monotonic_narrowing (cfg : Cfg) (dev : Device)
    (env : AllocEnv) (size : Nat) (gfp : Gfp) (attrs : Attrs)
    (hz : cfg.zone_dma_bits ≤ 32) :
    ((__dma_direct_optimal_gfp_mask cfg dev dev.coherent_dma_mask).2 ≤
        tierMax cfg
          (__dma_direct_optimal_gfp_mask cfg dev dev.coherent_dma_mask).1 ∧
      ∀ t, (__dma_direct_optimal_gfp_mask cfg dev dev.coherent_dma_mask).2 ≤
          tierMax cfg t →
        tierMax cfg
            (__dma_direct_optimal_gfp_mask cfg dev dev.coherent_dma_mask).1 ≤
          tierMax cfg t) ∧
    List.Chain' (fun a b => gfpMeasure b < gfpMeasure a)
      (__dma_direct_alloc_pages cfg dev env size gfp attrs).2 := by
  constructor
  · obtain ⟨pl, heq, hlt⟩ :=
      optimal_gfp_shape cfg dev dev.coherent_dma_mask
    rw [heq]
    exact pick_narrowest cfg pl hz hlt
  · rcases alloc_pages_trace_cases cfg dev env size gfp attrs with h | ⟨g0, h⟩
    · rw [h]; exact List.chain'_nil
    · rw [h]
      exact (alloc_loop_trace cfg dev env size (PAGE_ALIGN size)
        (__dma_direct_optimal_gfp_mask cfg dev dev.coherent_dma_mask).2
        g0).2.2

/-- Witness for C1 (amended): a concrete allocation whose gfp trace is
strictly narrowing. -/
theorem zone_ladder_monotonic_narrowing_witness :
    List.Chain' (fun a b => gfpMeasure b < gfpMeasure a)
      (__dma_direct_alloc_pages cfgBase devA envA 4096 gfpBase attrsBase).2 :=
  (zone_ladder_monotonic_narrowing cfgBase devA envA 4096 gfpBase attrsBase
    (by decide)).2

/-- C1 (counterexample): a 40-bit device whose first, zone-unrestricted
attempt yields an unreachable page; the retry uses GFP_DMA32 — a strictly
narrower zone class, so the ladder does not escalate wider as the claim
states. -/
theorem zone_ladder_counterexample :
    (((__dma_direct_alloc_pages cfgBase devA envA 4096 gfpBase
        attrsBase).2).map gfpMeasure = [2, 1]) ∧
    ¬ List.Chain' (fun a b => gfpMeasure a < gfpMeasure b)
      (__dma_direct_alloc_pages cfgBase devA envA 4096 gfpBase attrsBase).2 := by
  have halloc : alloc_loop cfgBase devA envA 4096 4096 (DMA_BIT_MASK 40)
      gfpBase =
      (some ⟨0, false⟩, [gfpBase, { gfpBase with dma32 := true }]) := by
    rw [alloc_loop_step32 cfgBase devA envA 4096 4096 (DMA_BIT_MASK 40)
      gfpBase ⟨2 ^ 41, false⟩ (by decide) (by decide) (by decide)]
    rw [alloc_loop_first_ok cfgBase devA envA 4096 4096 (DMA_BIT_MASK 40)
      { gfpBase with dma32 := true } ⟨0, false⟩ (by decide) (by decide)]
  have htr : __dma_direct_alloc_pages cfgBase devA envA 4096 gfpBase attrsBase
      = (some ⟨0, false⟩, [gfpBase, { gfpBase with dma32 := true }]) := by
    rw [alloc_pages_no_cma cfgBase devA envA 4096 gfpBase attrsBase
      (fun g => rfl)]
    have h3 : applyZone
        { (if attrsBase.no_warn then { gfpBase with nowarn := true }
           else gfpBase) with zero := false }
        (__dma_direct_optimal_gfp_mask cfgBase devA
          devA.coherent_dma_mask).1 = gfpBase := by decide
    have h4 : (__dma_direct_optimal_gfp_mask cfgBase devA
        devA.coherent_dma_mask).2 = DMA_BIT_MASK 40 := by decide
    have h5 : PAGE_ALIGN 4096 = 4096 := by decide
    rw [h3, h4, h5]
    exact halloc
  rw [htr]
  constructor
  · decide
  · intro hch
    rw [List.chain'_cons] at hch
    have hlt := hch.1
    revert hlt
    decide

/-- C3: the coherent reachability predicate returns true iff the bus
address range ends at or below the minimum of the coherent mask and the
(optional) bus limit, for every device with a nonzero coherent mask and
every in-range address and positive size. -/
theorem dma_coherent_ok_matches_spec (dev : Device) (phys size : Nat)
    (hm : dev.coherent_dma_mask ≠ 0) (hs : 0 < size)
    (hb : phys_to_dma_direct dev phys + size ≤ W) :
    (dma_coherent_ok dev phys size = true ↔
      isReachableCoherent dev.coherent_dma_mask
        (if dev.bus_dma_limit = 0 then none else some dev.bus_dma_limit)
        (phys_to_dma_direct dev phys) size) := by
  unfold dma_coherent_ok isReachableCoherent
  rw [endW_eq _ _ hs hb]
  simp only [decide_eq_true_eq]
  unfold min_not_zero
  by_cases hb0 : dev.bus_dma_limit = 0
  · simp [hb0, hm]
  · simp [hb0, hm]

/-- Witness for C3: a 64-bit device with no bus limit, a zero base
address and a one-page size. -/
theorem dma_coherent_ok_matches_spec_witness :
    dma_coherent_ok devBase 0 4096 = true ↔
      isReachableCoherent devBase.coherent_dma_mask
        (if devBase.bus_dma_limit = 0 then none
         else some devBase.bus_dma_limit)
        (phys_to_dma_direct devBase 0) 4096 :=
  dma_coherent_ok_matches_spec devBase 0 4096 (by decide) (by decide)
    (by decide)

/-- C4 (code bug): a coherent allocation with
DMA_ATTR_NO_KERNEL_MAPPING on an unencrypted device succeeds — handing
back the page as an opaque cookie — yet its event trace contains no
memset of any length: `__GFP_ZERO` was stripped with the comment that the
memory is always zeroed manually, but this return path never zeroes. -/
theorem alloc_no_kernel_mapping_not_zeroed :
    (dma_direct_alloc_pages cfgBase devBase envCookie 4096 gfpBase
      attrsNoMap).1.isSome = true ∧
    ∀ n, Ev.memset n ∉
      (dma_direct_alloc_pages cfgBase devBase envCookie 4096 gfpBase
        attrsNoMap).2 := by
  have htr : (dma_direct_alloc_pages cfgBase devBase envCookie 4096 gfpBase
      attrsNoMap).2 = [Ev.prepCoherent 4096] := by decide
  refine ⟨by decide, ?_⟩
  intro n hmem
  rw [htr] at hmem
  simp at hmem

/-- C6 (amended): when the allocation needs a kernel mapping (the
no-kernel-mapping cookie path does not apply), no remap facility is
configured and the page obtained is high memory, the allocation fails
hard: the page is released and the failure sentinel returned. -/
theorem highmem_without_remap_fails (cfg : Cfg) (dev : Device)
    (env : AllocEnv) (size : Nat) (gfp : Gfp) (attrs : Attrs) (p : Page)
    (h1 : ¬(attrs.no_kernel_mapping = true ∧ ¬dev.forceUnencrypted = true))
    (h2 : ¬(cfg.dma_direct_remap = true ∧
      dma_alloc_need_uncached cfg dev attrs = true))
    (h3 : cfg.dma_remap = false)
    (h4 : (__dma_direct_alloc_pages cfg dev env size gfp attrs).1 = some p)
    (h5 : p.highmem = true) :
    dma_direct_alloc_pages cfg dev env size gfp attrs =
      (none, [Ev.freeContig size]) := by
  unfold dma_direct_alloc_pages
  dsimp only
  rw [if_neg (fun hc => h2 ⟨hc.1, hc.2.1⟩), h4]
  dsimp only
  rw [if_neg h1]
  rw [if_neg ?hrem, if_pos h5]
  case hrem =>
    rintro (hA | hB)
    · exact h2 hA
    · rw [h3] at hB
      exact Bool.false_ne_true hB.1

/-- Witness for C6 (amended): a high-memory contiguous-pool page with no
remap support makes the allocation fail and releases the page. -/
theorem highmem_without_remap_fails_witness :
    dma_direct_alloc_pages cfgBase devBase envHigh 4096 gfpBase attrsBase =
      (none, [Ev.freeContig 4096]) :=
  highmem_without_remap_fails cfgBase devBase envHigh 4096 gfpBase attrsBase
    ⟨4096, true⟩ (by decide) (by decide) (by decide) (by decide) (by decide)

/-- C6 (counterexample): with DMA_ATTR_NO_KERNEL_MAPPING set, a
high-memory page returned by the contiguous pool on a build with no remap
facility is handed back as the allocation's cookie — the allocation
completes rather than failing hard as the claim states. -/
theorem highmem_cookie_counterexample :
    envHigh.cma_alloc (PAGE_ALIGN 4096) gfpBase = some ⟨4096, true⟩ ∧
    cfgBase.dma_direct_remap = false ∧ cfgBase.dma_remap = false ∧
    (dma_direct_alloc_pages cfgBase devBase envHigh 4096 gfpBase
      attrsNoMap).1.isSome = true := by
  decide

/-- A trace that splits into a copy-back-free prefix and an
invalidation-free suffix keeps all invalidations before all copy-backs. -/
theorem archInvBeforeBounce_append (a b : List Ev)
    (ha : ∀ e ∈ a, isBounceBack e = false)
    (hb : ∀ e ∈ b, isArchInv e = false) :
    ArchInvBeforeBounce (a ++ b) :=
  ⟨a, b, rfl, ha, hb⟩

/-- The per-segment for-CPU sync trace invalidates before copying back. -/
theorem sync_sg_cpu_seg_ordered (dev : Device) (sw : Swiotlb) (sg : SgEnt) :
    ArchInvBeforeBounce (sync_sg_cpu_seg dev sw sg) := by
  unfold sync_sg_cpu_seg
  apply archInvBeforeBounce_append
  · intro e he
    split at he
    · rcases List.mem_singleton.mp he with rfl
      rfl
    · simp at he
  · intro e he
    split at he
    · rcases List.mem_singleton.mp he with rfl
      rfl
    · simp at he

/-- The for-CPU scatter-gather loop is the per-segment traces in list
order. -/
theorem sync_sg_cpu_loop_flatten (dev : Device) (sw : Swiotlb)
    (sgl : List SgEnt) :
    sync_sg_cpu_loop dev sw sgl =
      (sgl.map (sync_sg_cpu_seg dev sw)).flatten := by
  induction sgl with
  | nil => rfl
  | cons sg rest ih => simp [sync_sg_cpu_loop, ih]

/-- C5: for every sync-for-CPU call, on a non-coherent device the
architecture cache invalidation is performed strictly before any
bounce-slot copy-back for the same buffer — for the single-buffer
operation, and per segment for the scatter-gather operation, whose trace
is the per-segment traces in order followed only by the architecture-wide
invalidation. -/
theorem sync_for_cpu_invalidate_before_copyback :
    (∀ (dev : Device) (sw : Swiotlb) (addr size : Nat),
      ArchInvBeforeBounce (dma_direct_sync_single_for_cpu dev sw addr size)) ∧
    (∀ (dev : Device) (sw : Swiotlb) (sgl : List SgEnt),
      dma_direct_sync_sg_for_cpu dev sw sgl =
        (sgl.map (sync_sg_cpu_seg dev sw)).flatten ++
          (if ¬dev.is_coherent then [Ev.archSyncCpuAll] else []) ∧
      ∀ sg ∈ sgl, ArchInvBeforeBounce (sync_sg_cpu_seg dev sw sg)) := by
  constructor
  · intro dev sw addr size
    unfold dma_direct_sync_single_for_cpu
    apply archInvBeforeBounce_append
    · intro e he
      split at he
      · rcases List.mem_cons.mp he with rfl | he
        · rfl
        · rcases List.mem_singleton.mp he with rfl
          rfl
      · simp at he
    · intro e he
      split at he
      · rcases List.mem_singleton.mp he with rfl
        rfl
      · simp at he
  · intro dev sw sgl
    refine ⟨?_, fun sg _ => sync_sg_cpu_seg_ordered dev sw sg⟩
    unfold dma_direct_sync_sg_for_cpu
    rw [sync_sg_cpu_loop_flatten]

/-- Witness for C5: the segment trace of a concrete non-coherent sync. -/
theorem sync_for_cpu_invalidate_before_copyback_witness :
    ArchInvBeforeBounce (sync_sg_cpu_seg devN swBase sgA) :=
  (sync_for_cpu_invalidate_before_copyback.2 devN swBase [sgA]).2 sgA
    (List.mem_singleton.mpr rfl)

/-- C7 (amended): scatter-gather synchronization applies the per-segment
effects in list index order — for-device sync is exactly the
concatenation of the single-buffer syncs, while for-CPU sync concatenates
the per-segment invalidate/copy-back pairs in order but issues the
architecture-wide invalidation once after the loop instead of per
segment. -/
theorem sync_sg_per_segment_order (dev : Device) (sw : Swiotlb)
    (sgl : List SgEnt) :
    dma_direct_sync_sg_for_device dev sw sgl =
      (sgl.map (fun sg =>
        dma_direct_sync_single_for_device dev sw sg.dma_address
          sg.length)).flatten ∧
    dma_direct_sync_sg_for_cpu dev sw sgl =
      (sgl.map (sync_sg_cpu_seg dev sw)).flatten ++
        (if ¬dev.is_coherent then [Ev.archSyncCpuAll] else []) := by
  constructor
  · induction sgl with
    | nil => rfl
    | cons sg rest ih =>
      simp only [dma_direct_sync_sg_for_device, List.map_cons,
        List.flatten_cons, ih]
      rfl
  · unfold dma_direct_sync_sg_for_cpu
    rw [sync_sg_cpu_loop_flatten]

/-- C7 (counterexample): for a non-coherent device and two segments, the
for-CPU scatter-gather trace differs from the concatenation of the two
single-buffer for-CPU syncs — the architecture-wide invalidation is
batched once after both segments. -/
theorem sync_sg_cpu_batching_counterexample :
    dma_direct_sync_sg_for_cpu devN swBase [sgA, sgB] ≠
      ([sgA, sgB].map (fun sg =>
        dma_direct_sync_single_for_cpu devN swBase sg.dma_address
          sg.length)).flatten := by
  decide

/-- With DMA_ATTR_SKIP_CPU_SYNC set, unmapping a list emits only
bounce-slot releases: no CPU-facing sync of any kind. -/
theorem unmap_sg_skip_only_release (dev : Device) (sw : Swiotlb)
    (sgl : List SgEnt) (attrs : Attrs) (h : attrs.skip_cpu_sync = true) :
    ∀ e ∈ dma_direct_unmap_sg dev sw sgl attrs,
      ∃ p n, e = Ev.tblUnmap p n := by
  intro e he
  unfold dma_direct_unmap_sg at he
  rw [List.mem_flatten] at he
  obtain ⟨l, hl, hel⟩ := he
  rw [List.mem_map] at hl
  obtain ⟨sg, -, rfl⟩ := hl
  unfold dma_direct_unmap_page at hel
  by_cases hb : sw.is_buffer (dma_to_phys dev sg.dma_address) <;>
    simp [h, hb] at hel
  exact ⟨_, _, hel⟩

/-- The mapping loop on an all-mappable suffix: it returns the total count,
appends every segment with its bus address written in order, and emits the
per-segment map events in order. -/
theorem map_sg_loop_all_ok (dev : Device) (sw : Swiotlb) (dir : Dir)
    (attrs : Attrs) :
    ∀ (l : List SgEnt) (acc : List SgEnt) (evs : List Ev),
      (∀ sg ∈ l, (mapSegAddr dev sw dir attrs sg).isSome = true) →
      map_sg_loop dev sw dir attrs acc evs l =
        (acc.length + l.length,
         acc.reverse ++ l.map (assignSeg dev sw dir attrs),
         evs ++ (l.map (mapSegEvs dev sw dir attrs)).flatten) := by
  intro l
  induction l with
  | nil =>
    intro acc evs h
    simp [map_sg_loop]
  | cons sg rest ih =>
    intro acc evs h
    have hsg := h sg (List.mem_cons_self sg rest)
    unfold mapSegAddr at hsg
    obtain ⟨a, ha⟩ := Option.isSome_iff_exists.mp hsg
    unfold map_sg_loop
    dsimp only
    rw [ha]
    dsimp only
    rw [ih _ _ (fun s hs => h s (List.mem_cons_of_mem _ hs))]
    have hassign : { sg with dma_address := a, dma_length := sg.length } =
        assignSeg dev sw dir attrs sg := by
      unfold assignSeg mapSegAddr
      rw [ha]
      rfl
    rw [hassign]
    simp only [List.length_cons, List.reverse_cons, List.map_cons,
      List.flatten_cons, List.append_assoc, mapSegEvs]
    refine congrArg₂ _ (by omega) ?_
    rfl

/-- The mapping loop when the first failure occurs after an all-mappable
prefix: it returns 0, writes the error sentinel into the failing segment,
and after the map events unwinds exactly the already-mapped segments with
CPU sync skipped. -/
theorem map_sg_loop_first_fail (dev : Device) (sw : Swiotlb) (dir : Dir)
    (attrs : Attrs) :
    ∀ (pre : List SgEnt) (bad : SgEnt) (rest : List SgEnt)
      (acc : List SgEnt) (evs : List Ev),
      (∀ sg ∈ pre, (mapSegAddr dev sw dir attrs sg).isSome = true) →
      mapSegAddr dev sw dir attrs bad = none →
      map_sg_loop dev sw dir attrs acc evs (pre ++ bad :: rest) =
        (0,
         (acc.reverse ++ pre.map (assignSeg dev sw dir attrs)) ++
           ({ bad with dma_address := W - 1 } :: rest),
         (evs ++ (pre.map (mapSegEvs dev sw dir attrs)).flatten ++
             mapSegEvs dev sw dir attrs bad) ++
           dma_direct_unmap_sg dev sw
             (acc.reverse ++ pre.map (assignSeg dev sw dir attrs))
             { attrs with skip_cpu_sync := true }) := by
  intro pre
  induction pre with
  | nil =>
    intro bad rest acc evs hpre hbad
    unfold mapSegAddr at hbad
    rw [List.nil_append]
    unfold map_sg_loop
    dsimp only
    rw [hbad]
    dsimp only
    simp [mapSegEvs, List.append_assoc]
  | cons s pre ih =>
    intro bad rest acc evs hpre hbad
    have hs := hpre s (List.mem_cons_self s pre)
    unfold mapSegAddr at hs
    obtain ⟨a, ha⟩ := Option.isSome_iff_exists.mp hs
    rw [List.cons_append]
    unfold map_sg_loop
    dsimp only
    rw [ha]
    dsimp only
    rw [ih bad rest _ _ (fun x hx => hpre x (List.mem_cons_of_mem _ hx)) hbad]
    have hassign : { s with dma_address := a, dma_length := s.length } =
        assignSeg dev sw dir attrs s := by
      unfold assignSeg mapSegAddr
      rw [ha]
      rfl
    rw [hassign]
    simp only [List.reverse_cons, List.map_cons, List.flatten_cons,
      List.append_assoc, mapSegEvs, List.singleton_append, List.cons_append,
      List.nil_append]

/-- C2: `dma_direct_map_sg` is all-or-nothing — when every segment maps,
it returns the segment count with each bus address written in index
order; when the first failure occurs at segment k, it returns 0 (never k)
and, after the map events, unmaps exactly segments 0..k-1 in order with
CPU sync skipped (the unwind emits only bounce-slot releases). -/
theorem dma_direct_map_sg_all_or_nothing (dev : Device) (sw : Swiotlb)
    (dir : Dir) (attrs : Attrs) (sgl : List SgEnt) :
    ((∀ sg ∈ sgl, (mapSegAddr dev sw dir attrs sg).isSome = true) →
      (dma_direct_map_sg dev sw sgl dir attrs).1 = sgl.length ∧
      (dma_direct_map_sg dev sw sgl dir attrs).2.1 =
        sgl.map (assignSeg dev sw dir attrs)) ∧
    (∀ pre bad rest, sgl = pre ++ bad :: rest →
      (∀ sg ∈ pre, (mapSegAddr dev sw dir attrs sg).isSome = true) →
      mapSegAddr dev sw dir attrs bad = none →
      (dma_direct_map_sg dev sw sgl dir attrs).1 = 0 ∧
      (dma_direct_map_sg dev sw sgl dir attrs).2.2 =
        ((pre.map (mapSegEvs dev sw dir attrs)).flatten ++
            mapSegEvs dev sw dir attrs bad) ++
          dma_direct_unmap_sg dev sw (pre.map (assignSeg dev sw dir attrs))
            { attrs with skip_cpu_sync := true } ∧
      (∀ e ∈ dma_direct_unmap_sg dev sw
          (pre.map (assignSeg dev sw dir attrs))
          { attrs with skip_cpu_sync := true },
        ∃ p n, e = Ev.tblUnmap p n)) := by
  constructor
  · intro h
    unfold dma_direct_map_sg
    rw [map_sg_loop_all_ok dev sw dir attrs sgl [] [] h]
    simp
  · intro pre bad rest hsgl hpre hbad
    subst hsgl
    unfold dma_direct_map_sg
    rw [map_sg_loop_first_fail dev sw dir attrs pre bad rest [] [] hpre hbad]
    refine ⟨rfl, by simp, ?_⟩
    exact unmap_sg_skip_only_release dev sw _ _ rfl

/-- Witness for C2: a single reachable segment maps with count 1 and its
bus address written. -/
theorem dma_direct_map_sg_all_or_nothing_witness :
    (dma_direct_map_sg devBase swBase [sgA] Dir.toDevice attrsBase).1 = 1 ∧
    (dma_direct_map_sg devBase swBase [sgA] Dir.toDevice attrsBase).2.1 =
      [sgA].map (assignSeg devBase swBase Dir.toDevice attrsBase) := by
  have h := (dma_direct_map_sg_all_or_nothing devBase swBase Dir.toDevice
    attrsBase [sgA]).1 (by decide)
  exact ⟨h.1, h.2⟩

/-- C9: when the bounce pool is forced, a single-page streaming map never
yields a direct mapping — it is routed through the bounce pool or fails;
and a direct (non-bounced) mapping results exactly when the force flag is
unset and the candidate bus address passes the streaming reachability
check. -/
theorem map_page_force_bounce (dev : Device) (sw : Swiotlb)
    (page_phys offset size : Nat) (dir : Dir) (attrs : Attrs) :
    (sw.force = true →
      (dma_direct_map_page dev sw page_phys offset size dir attrs).2.1 =
        true ∨
      (dma_direct_map_page dev sw page_phys offset size dir attrs).1 =
        none) ∧
    (((dma_direct_map_page dev sw page_phys offset size dir
          attrs).1.isSome = true ∧
      (dma_direct_map_page dev sw page_phys offset size dir attrs).2.1 =
        false) ↔
      (sw.force = false ∧
        dma_capable dev (phys_to_dma dev (page_phys + offset)) size =
          true)) := by
  unfold dma_direct_map_page
  dsimp only
  by_cases hp : dma_direct_possible dev sw
      (phys_to_dma dev (page_phys + offset)) size = true
  · have hp' := hp
    unfold dma_direct_possible at hp'
    simp only [Bool.decide_and, Bool.decide_coe, Bool.and_eq_true,
      decide_eq_true_eq, Bool.not_eq_true'] at hp'
    rw [if_pos hp]
    dsimp only
    constructor
    · intro hf
      rw [hf] at hp'
      exact absurd hp'.1 (by simp)
    · simp [hp'.1, hp'.2]
  · rw [if_neg hp]
    have hp' := hp
    unfold dma_direct_possible at hp'
    simp only [Bool.decide_and, Bool.decide_coe, Bool.and_eq_true,
      decide_eq_true_eq, Bool.not_eq_true'] at hp'
    rcases hm : sw.map (page_phys + offset) size with - | ⟨p', d'⟩
    · dsimp only
      constructor
      · intro _
        right
        rfl
      · constructor
        · intro hl
          simp at hl
        · intro hr
          exact absurd ⟨by simp [hr.1], hr.2⟩ hp'
    · dsimp only
      constructor
      · intro _
        left
        rfl
      · constructor
        · intro hl
          simp at hl
        · intro hr
          exact absurd ⟨by simp [hr.1], hr.2⟩ hp'

/-- C8: `dma_direct_mmap` populates the user page-table range only when
the requested page offset plus page count fits in the allocation's page
count, and returns -ENXIO (without populating) whenever the requested
range exceeds the allocation. -/
theorem dma_direct_mmap_range_check (cfg : Cfg) (vma : Vma) (size : Nat)
    (remapRet : Int) (hm : cfg.mmu = true) :
    ((dma_direct_mmap cfg vma size none remapRet).2 = true →
      vma.vm_pgoff + vma.pages ≤ PAGE_ALIGN size / PAGE_SIZE) ∧
    (PAGE_ALIGN size / PAGE_SIZE < vma.vm_pgoff + vma.pages →
      dma_direct_mmap cfg vma size none remapRet = (-6, false)) := by
  unfold dma_direct_mmap
  rw [if_neg (by simp [hm])]
  dsimp only
  generalize PAGE_ALIGN size / PAGE_SIZE = count
  constructor
  · intro hp
    by_cases hc : vma.vm_pgoff ≥ count ∨ vma.pages > count - vma.vm_pgoff
    · rw [if_pos hc] at hp
      simp at hp
    · push_neg at hc
      omega
  · intro hgt
    rw [if_pos (by omega)]

/-- Witness for C9: a forced bounce pool with a failing bounce allocation
makes a reachable single-page map fail rather than map directly. -/
theorem map_page_force_bounce_witness :
    ({ swBase with force := true } : Swiotlb).force = true ∧
    ((dma_direct_map_page devBase { swBase with force := true } 8192 0 4096
        Dir.toDevice attrsBase).2.1 = true ∨
      (dma_direct_map_page devBase { swBase with force := true } 8192 0 4096
        Dir.toDevice attrsBase).1 = none) :=
  ⟨rfl, (map_page_force_bounce devBase { swBase with force := true } 8192 0
      4096 Dir.toDevice attrsBase).1 rfl⟩

/-- Witness for C8: a one-page mapping request against a one-page
allocation. -/
theorem dma_direct_mmap_range_check_witness :
    ((dma_direct_mmap cfgBase ⟨0, 1⟩ 4096 none 0).2 = true →
      (0 : Nat) + 1 ≤ PAGE_ALIGN 4096 / PAGE_SIZE) ∧
    (PAGE_ALIGN 4096 / PAGE_SIZE < (0 : Nat) + 1 →
      dma_direct_mmap cfgBase ⟨0, 1⟩ 4096 none 0 = (-6, false)) :=
  dma_direct_mmap_range_check cfgBase ⟨0, 1⟩ 4096 0 (by decide)

end DmaDirect
